import Mathlib

/-!
# Verification of the DzenHelper acquisition-and-generation pipeline

Shallow embedding of the core of the repository:

* `src/services/downloader.ts` — the multi-strategy `yt-dlp` runner
  (`VideoDownloader.downloadAudio`), its aggregate-error classification and
  its handling of the temporary output file;
* `src/services/googledrive.ts` (second unit, `Transcriber.loadAudioFile`) —
  peak-normalization of decoded audio samples;
* `src/handlers/youtube.ts` — the orchestrator `handleYouTubeUrl` and the
  transcription-session aggregator (`handleTranscriptionMessage`,
  `handleFinishTranscription`, `scheduleAutoFinish`);
* `src/services/article.ts` — the retrying streaming generator
  `ArticleGenerator.generateArticleStreaming`;
* `src/utils/telegram.ts` — `splitMessage`.

Machine floats are modelled by `ℚ`, the filesystem slot for the single
output path of a download run by `Option Nat` (the index of the strategy
attempt that last wrote it), and JavaScript strings by Lean `String`.
-/

namespace DzenHelper

/-- JavaScript `String.prototype.includes` on lists of characters:
`containsSub s pat` is `true` iff `pat` occurs contiguously inside `s`. -/
def containsSub : List Char → List Char → Bool
  | s, pat =>
    pat.isPrefixOf s ||
      match s with
      | [] => false
      | _ :: t => containsSub t pat

/-- JavaScript `s.includes(pat)` on `String`. -/
def strIncludes (s pat : String) : Bool :=
  containsSub s.toList pat.toList

/-- JavaScript `String.prototype.trim`: strip leading and trailing
whitespace. -/
def jsTrim (s : String) : String :=
  ⟨((s.data.dropWhile Char.isWhitespace).reverse.dropWhile Char.isWhitespace).reverse⟩

/-- JavaScript `Array.prototype.join(sep)` for an array of strings. -/
def joinSep (sep : String) : List String → String
  | [] => ""
  | [x] => x
  | x :: xs => x ++ sep ++ joinSep sep xs

example : strIncludes "abc def" "c d" = true := by decide
example : strIncludes "429 too many requests" "not found" = false := by decide
example : joinSep "\n\n" ["A", "B", "C"] = "A\n\nB\n\nC" := by decide

/-! ## `VideoDownloader.downloadAudio` (src/services/downloader.ts, lines 190–258)

A download run is driven by the ordered strategy list.  What varies between
runs is how each strategy's external `yt-dlp` invocation behaves, which we
record per strategy:

* `execOk` — whether `execAsync` resolves (exit status 0) or rejects;
* `writesFile` — whether the tool wrote the output path during the attempt
  (a failed invocation may still leave a partially-written file);
* `errMsg` — the error message carried by the rejection when `execOk = false`.

The single output path `audioPath` is modelled as `Option Nat`: `some j`
means the file currently on disk was written by the attempt with index `j`,
`none` means the path is empty.  The post-invocation existence check of the
source (line 217, `fs.pathExists(finalPath)`) is modelled as the check that
this slot is occupied. -/
structure AttemptBehavior where
  execOk : Bool
  writesFile : Bool
  errMsg : String
deriving DecidableEq, Repr

/-- The aggregate error thrown after the strategy loop (lines 242–258):
either the "yt-dlp not found in PATH, install it" remediation error or the
"failed after trying multiple strategies" error carrying the last message. -/
inductive AggregateError where
  | toolMissing
  | exhausted (lastMsg : String)
deriving DecidableEq, Repr

/-- The not-found test applied to `lastError` (lines 243–245):
`lastError?.message?.includes('не является внутренней') ||
 ...includes('not found') || ...includes('is not recognized')`. -/
def matchesNotFound (msg : String) : Bool :=
  strIncludes msg "не является внутренней" ||
    strIncludes msg "not found" ||
    strIncludes msg "is not recognized"

/-- Classification of the aggregate error from the final `lastError`
(`none` models `lastError === null`, whose guard chain is falsy and which
produces the exhausted error with message `'Unknown error'`). -/
def classifyAggregate (lastError : Option String) : AggregateError :=
  match lastError with
  | some m => if matchesNotFound m then .toolMissing else .exhausted m
  | none => .exhausted "Unknown error"

/-- Outcome of one whole `downloadAudio` run.

* `attempted` — indices of the strategies that were actually invoked, in
  invocation order;
* `outcome` — `.ok (i, w)`: the run returned from the attempt with index
  `i`, handing the caller the file written by attempt `w`;
  `.error e`: the run threw the aggregate error `e`;
* `finalFile` — the state of the output path when the run ends (the failure
  paths call `cleanupFile(audioPath)` before throwing, lines 246 and 256). -/
structure RunResult where
  attempted : List Nat
  outcome : Except AggregateError (Nat × Nat)
  finalFile : Option Nat
deriving Repr

/-- The strategy loop of `downloadAudio` (lines 190–258).  For each strategy
in order: run the external command; on rejection record the error and move
on (`catch { lastError = error; continue; }` — note that nothing touches the
output path there); on resolution check that the output file exists, return
it if so, else record `'Audio download failed - file not found'` and move
on.  After the loop, clean up the output path and throw the classified
aggregate error. -/
def runStrategies : List AttemptBehavior → Nat → Option Nat → Option String → RunResult
  | [], _, _, lastError =>
      { attempted := []
        outcome := .error (classifyAggregate lastError)
        finalFile := none }
  | a :: rest, i, file, lastError =>
      let file1 : Option Nat := if a.writesFile then some i else file
      if a.execOk then
        match file1 with
        | some w =>
            { attempted := [i], outcome := .ok (i, w), finalFile := some w }
        | none =>
            let r := runStrategies rest (i + 1) none
              (some "Audio download failed - file not found")
            { r with attempted := i :: r.attempted }
      else
        let r := runStrategies rest (i + 1) file1 (some a.errMsg)
        { r with attempted := i :: r.attempted }

/-- One `downloadAudio` run over a given strategy-behavior list, starting
with an empty output path and `lastError = null`. -/
def downloadAudio (attempts : List AttemptBehavior) : RunResult :=
  runStrategies attempts 0 none none

/-- If every strategy in a prefix has a rejecting invocation, and the next
strategy's invocation resolves and writes the file, the loop attempts
exactly the prefix indices in order and then returns the freshly written
file, whatever loop state it started from. -/
lemma runStrategies_prefix_fail (pre : List AttemptBehavior) (a : AttemptBehavior)
    (post : List AttemptBehavior) (i : Nat) (file : Option Nat) (lastError : Option String)
    (hpre : ∀ b ∈ pre, b.execOk = false) (ha : a.execOk = true) (hw : a.writesFile = true) :
    runStrategies (pre ++ a :: post) i file lastError =
      { attempted := List.range' i (pre.length + 1)
        outcome := .ok (i + pre.length, i + pre.length)
        finalFile := some (i + pre.length) } := by
  induction pre generalizing i file lastError with
  | nil =>
      simp only [List.nil_append, runStrategies, hw, if_true, ha]
      simp [List.range'_succ, List.range']
  | cons b pre ih =>
      have hb : b.execOk = false := hpre b (by simp)
      have hpre' : ∀ c ∈ pre, c.execOk = false := fun c hc => hpre c (by simp [hc])
      simp only [List.cons_append, runStrategies, hb, Bool.false_eq_true, if_false,
        List.append_eq]
      rw [ih (i + 1) _ _ hpre']
      simp [List.range'_succ, List.length_cons]
      omega

/-- When the loop ends by throwing, every remaining strategy was attempted,
in order. -/
lemma runStrategies_error_attempted (attempts : List AttemptBehavior) (i : Nat)
    (file : Option Nat) (lastError : Option String) (e : AggregateError)
    (h : (runStrategies attempts i file lastError).outcome = .error e) :
    (runStrategies attempts i file lastError).attempted = List.range' i attempts.length := by
  induction attempts generalizing i file lastError with
  | nil => simp [runStrategies, List.range']
  | cons a rest ih =>
      by_cases ha : a.execOk = true
      · rcases hf : (if a.writesFile then some i else file : Option Nat) with _ | w
        · simp only [runStrategies, ha, if_true, hf] at h ⊢
          rw [List.length_cons, List.range'_succ]
          simpa using ih (i + 1) none _ h
        · simp [runStrategies, ha, hf] at h
      · simp only [runStrategies, ha, if_false] at h ⊢
        rw [List.length_cons, List.range'_succ]
        simpa using ih (i + 1) _ _ h

/-- C1: for every strategy list in which the first K strategies' invocations
fail and strategy K+1's invocation succeeds and writes the output file,
`downloadAudio` attempts strategies 1..K each exactly once, in list order
(indices 0..K-1), before returning the artifact written by strategy K+1
(index K); and it throws the aggregate acquisition error only after every
configured strategy has been attempted, in order. -/
theorem downloadAudio_ordered_fallback :
    (∀ (pre : List AttemptBehavior) (a : AttemptBehavior) (post : List AttemptBehavior),
      (∀ b ∈ pre, b.execOk = false) → a.execOk = true → a.writesFile = true →
      (downloadAudio (pre ++ a :: post)).attempted = List.range (pre.length + 1) ∧
      (downloadAudio (pre ++ a :: post)).outcome = .ok (pre.length, pre.length)) ∧
    (∀ (attempts : List AttemptBehavior) (e : AggregateError),
      (downloadAudio attempts).outcome = .error e →
      (downloadAudio attempts).attempted = List.range attempts.length) := by
  constructor
  · intro pre a post hpre ha hw
    rw [downloadAudio, runStrategies_prefix_fail pre a post 0 none none hpre ha hw]
    simp [List.range_eq_range']
  · intro attempts e h
    rw [downloadAudio, runStrategies_error_attempted attempts 0 none none e h,
      List.range_eq_range']

/-- Witness for `downloadAudio_ordered_fallback`: two failing strategies,
then a succeeding one, and a fully failing two-strategy run. -/
theorem downloadAudio_ordered_fallback_witness :
    (downloadAudio
        [⟨false, false, "HTTP Error 429"⟩, ⟨false, true, "timed out"⟩,
          ⟨true, true, ""⟩, ⟨false, false, "never reached"⟩]).attempted = [0, 1, 2] ∧
    (downloadAudio
        [⟨false, false, "HTTP Error 429"⟩, ⟨false, true, "timed out"⟩,
          ⟨true, true, ""⟩, ⟨false, false, "never reached"⟩]).outcome = .ok (2, 2) ∧
    (downloadAudio [⟨false, false, "a"⟩, ⟨false, false, "b"⟩]).attempted = [0, 1] := by
  refine ⟨?_, ?_, ?_⟩
  · have h := (downloadAudio_ordered_fallback.1
      [⟨false, false, "HTTP Error 429"⟩, ⟨false, true, "timed out"⟩]
      ⟨true, true, ""⟩ [⟨false, false, "never reached"⟩]
      (by decide) rfl rfl).1
    simpa using h
  · have h := (downloadAudio_ordered_fallback.1
      [⟨false, false, "HTTP Error 429"⟩, ⟨false, true, "timed out"⟩]
      ⟨true, true, ""⟩ [⟨false, false, "never reached"⟩]
      (by decide) rfl rfl).2
    simpa using h
  · have h := downloadAudio_ordered_fallback.2 [⟨false, false, "a"⟩, ⟨false, false, "b"⟩]
      (.exhausted "b") rfl
    simpa using h

/-- A run in which the first strategy fails with a rate-limit message and
the second fails with a tool-not-on-PATH message. -/
def mixedFailures : List AttemptBehavior :=
  [⟨false, false, "HTTP Error 429: Too Many Requests"⟩,
    ⟨false, false, "'yt-dlp' is not recognized as an internal or external command"⟩]

/-- C2 counterexample: with `mixedFailures` all strategies fail, the first
failure does **not** match a not-found pattern, yet the synthesized
aggregate error is the "tool missing" error — because lines 243–245 of
downloader.ts test only `lastError`, not every recorded failure.  The claim
says this run must yield the "all strategies exhausted" error. -/
theorem downloadAudio_classify_not_all_refuted :
    (downloadAudio mixedFailures).outcome = .error .toolMissing ∧
    ¬ (∀ b ∈ mixedFailures, matchesNotFound b.errMsg = true) := by
  constructor
  · rfl
  · decide

/-- In an all-failing run the loop's final `lastError` is the last
strategy's error, so the thrown error is its classification. -/
lemma runStrategies_all_fail_classify (attempts : List AttemptBehavior) (i : Nat)
    (file : Option Nat) (lastError : Option String)
    (h : ∀ b ∈ attempts, b.execOk = false) (hne : attempts ≠ []) :
    (runStrategies attempts i file lastError).outcome =
      .error (classifyAggregate (some (attempts.getLast hne).errMsg)) := by
  induction attempts generalizing i file lastError with
  | nil => exact absurd rfl hne
  | cons a rest ih =>
      have ha : a.execOk = false := h a (by simp)
      by_cases hne' : rest = []
      · subst hne'
        simp [runStrategies, ha, classifyAggregate]
      · have hrest : ∀ c ∈ rest, c.execOk = false := fun c hc => h c (by simp [hc])
        simp only [runStrategies, ha, Bool.false_eq_true, if_false]
        rw [ih (i + 1) _ _ hrest hne', List.getLast_cons hne']

/-- C2 amended: when every strategy's invocation fails, the aggregate error
is the "tool missing" error exactly when the **last** underlying failure
matches a not-found pattern, and otherwise is the "all strategies
exhausted" error carrying the last failure's message. -/
theorem downloadAudio_classify_last_error (attempts : List AttemptBehavior)
    (h : ∀ b ∈ attempts, b.execOk = false) (hne : attempts ≠ []) :
    (downloadAudio attempts).outcome =
      .error (if matchesNotFound (attempts.getLast hne).errMsg
        then .toolMissing
        else .exhausted (attempts.getLast hne).errMsg) := by
  rw [downloadAudio, runStrategies_all_fail_classify attempts 0 none none h hne,
    classifyAggregate]

/-- Witness for `downloadAudio_classify_last_error` on `mixedFailures`. -/
theorem downloadAudio_classify_last_error_witness :
    (downloadAudio mixedFailures).outcome = .error .toolMissing := by
  have h := downloadAudio_classify_last_error mixedFailures (by decide) (by decide)
  simpa using h

/-- A failing first strategy that leaves a partially-written output file,
followed by a strategy whose invocation resolves without writing anything. -/
def stalePair : List AttemptBehavior :=
  [⟨false, true, "network error"⟩, ⟨true, false, ""⟩]

/-- C9 counterexample: on `stalePair` the first strategy's invocation
rejects after writing the output path; nothing removes that file before the
second strategy runs (the `catch` at lines 235–239 only records the error),
so the second strategy's post-invocation existence check succeeds on the
stale file and `downloadAudio` returns the artifact written by the failed
attempt 0 — exactly the stale-file false positive the claim rules out. -/
theorem downloadAudio_stale_file_refuted :
    (downloadAudio stalePair).outcome = .ok (1, 0) ∧
    (stalePair.get ⟨0, by decide⟩).execOk = false := by
  exact ⟨rfl, rfl⟩

/-- C9 amended: partially-written output files of failed attempts are *not*
removed between strategies — the output path is cleaned up only after every
strategy has failed — so the existence check of a later strategy can
succeed on a stale file left by an earlier failed attempt (as on
`stalePair`). -/
theorem downloadAudio_cleanup_only_after_exhaustion :
    (downloadAudio stalePair).outcome = .ok (1, 0) ∧
    ∀ (attempts : List AttemptBehavior), (∀ b ∈ attempts, b.execOk = false) →
      (downloadAudio attempts).finalFile = none := by
  constructor
  · rfl
  · have key : ∀ (attempts : List AttemptBehavior) (i : Nat) (file : Option Nat)
        (lastError : Option String), (∀ b ∈ attempts, b.execOk = false) →
        (runStrategies attempts i file lastError).finalFile = none := by
      intro attempts
      induction attempts with
      | nil => intro i file lastError _; simp [runStrategies]
      | cons a rest ih =>
          intro i file lastError h
          have ha : a.execOk = false := h a (by simp)
          simp only [runStrategies, ha, Bool.false_eq_true, if_false]
          exact ih (i + 1) _ _ fun c hc => h c (by simp [hc])
    intro attempts h
    exact key attempts 0 none none h

/-- Witness for `downloadAudio_cleanup_only_after_exhaustion`: a concrete
fully failing run ends with the output path removed. -/
theorem downloadAudio_cleanup_only_after_exhaustion_witness :
    (downloadAudio [⟨false, true, "partial write then fail"⟩]).finalFile = none := by
  exact downloadAudio_cleanup_only_after_exhaustion.2
    [⟨false, true, "partial write then fail"⟩] (by decide)

/-! ## Peak normalization of decoded audio samples
(`Transcriber.loadAudioFile`, second unit of src/services/googledrive.ts,
lines 253–269)

Samples (`Float32Array` entries) are modelled as rationals. -/

/-- The first pass of lines 255–261: `max = 0; for each sample, if
`Math.abs(sample) > max` then `max = abs`. -/
def maxAbsSample (samples : List ℚ) : ℚ :=
  samples.foldl (fun m x => max m |x|) 0

/-- Lines 263–269: if the maximum absolute sample exceeds `1.0`, divide
every sample by it in place; otherwise leave the data untouched. -/
def normalizeSamples (samples : List ℚ) : List ℚ :=
  let m := maxAbsSample samples
  if 1 < m then samples.map (fun x => x / m) else samples

lemma maxAbsSample_foldl_le (samples : List ℚ) (a c : ℚ) (ha : a ≤ c) (hc : 0 ≤ c)
    (h : ∀ x ∈ samples, |x| ≤ c) :
    samples.foldl (fun m x => max m |x|) a ≤ c := by
  induction samples generalizing a with
  | nil => simpa using ha
  | cons y ys ih =>
      simp only [List.foldl_cons]
      exact ih (max a |y|) (max_le ha (h y (List.mem_cons_self y ys)))
        fun x hx => h x (List.mem_cons_of_mem y hx)

lemma maxAbsSample_le_one (samples : List ℚ) (h : ∀ x ∈ samples, |x| ≤ 1) :
    maxAbsSample samples ≤ 1 :=
  maxAbsSample_foldl_le samples 0 1 (by norm_num) (by norm_num) h

lemma maxAbsSample_map_div (samples : List ℚ) (c : ℚ) (hc : 0 < c) :
    maxAbsSample (samples.map (fun x => x / c)) = maxAbsSample samples / c := by
  have key : ∀ (a : ℚ),
      (samples.map (fun x => x / c)).foldl (fun m x => max m |x|) (a / c) =
        (samples.foldl (fun m x => max m |x|) a) / c := by
    induction samples with
    | nil => intro a; simp
    | cons y ys ih =>
        intro a
        simp only [List.map_cons, List.foldl_cons]
        rw [abs_div, abs_of_pos hc, max_div_div_right (le_of_lt hc), ih]
  have h0 : (0 : ℚ) = 0 / c := by simp
  rw [maxAbsSample, h0, key, maxAbsSample]

/-- C3: peak normalization leaves already-normalized sample data unchanged
(every sample of absolute value at most 1), rescales data with peak P > 1
to exactly the input divided pointwise by P with resulting peak exactly 1,
and is therefore idempotent. -/
theorem normalizeSamples_peak (samples : List ℚ) (hne : samples ≠ []) :
    ((∀ x ∈ samples, |x| ≤ 1) → normalizeSamples samples = samples) ∧
    (1 < maxAbsSample samples →
      normalizeSamples samples = samples.map (fun x => x / maxAbsSample samples) ∧
      maxAbsSample (normalizeSamples samples) = 1) ∧
    normalizeSamples (normalizeSamples samples) = normalizeSamples samples := by
  refine ⟨?_, ?_, ?_⟩
  · intro h
    have hm : maxAbsSample samples ≤ 1 := maxAbsSample_le_one samples h
    rw [normalizeSamples]
    simp [not_lt.mpr hm]
  · intro hP
    have hpos : 0 < maxAbsSample samples := lt_trans one_pos hP
    have hmap : normalizeSamples samples =
        samples.map (fun x => x / maxAbsSample samples) := by
      rw [normalizeSamples]; simp [hP]
    refine ⟨hmap, ?_⟩
    rw [hmap, maxAbsSample_map_div samples _ hpos, div_self (ne_of_gt hpos)]
  · by_cases hP : 1 < maxAbsSample samples
    · have hpos : 0 < maxAbsSample samples := lt_trans one_pos hP
      have hmap : normalizeSamples samples =
          samples.map (fun x => x / maxAbsSample samples) := by
        rw [normalizeSamples]; simp [hP]
      have hpeak : maxAbsSample (normalizeSamples samples) = 1 := by
        rw [hmap, maxAbsSample_map_div samples _ hpos, div_self (ne_of_gt hpos)]
      rw [normalizeSamples, hpeak]
      simp
    · have hid : normalizeSamples samples = samples := by
        rw [normalizeSamples]; simp [hP]
      rw [hid, normalizeSamples]
      simp [hP]

/-- Witness for `normalizeSamples_peak`: the in-range list `[1/2, -1]` is
unchanged, and `[2, -4]` (peak 4) becomes `[1/2, -1]` with peak 1. -/
theorem normalizeSamples_peak_witness :
    normalizeSamples [(1 : ℚ)/2, -1] = [(1 : ℚ)/2, -1] ∧
    normalizeSamples [(2 : ℚ), -4] = [(1 : ℚ)/2, -1] ∧
    maxAbsSample (normalizeSamples [(2 : ℚ), -4]) = 1 := by
  have habs : ∀ x ∈ [(1 : ℚ)/2, -1], |x| ≤ 1 := by
    intro x hx
    simp only [List.mem_cons, List.not_mem_nil, or_false] at hx
    rcases hx with rfl | rfl
    · rw [abs_of_nonneg (by norm_num : (0 : ℚ) ≤ 1/2)]
      norm_num
    · norm_num
  have hm : maxAbsSample [(2 : ℚ), -4] = 4 := by
    have h2 : |(2 : ℚ)| = 2 := by norm_num
    have h4 : |(-4 : ℚ)| = 4 := by
      rw [abs_neg]; norm_num
    simp only [maxAbsSample, List.foldl_cons, List.foldl_nil, h2, h4]
    rw [max_eq_right (by norm_num : (0 : ℚ) ⊔ 2 ≤ 4)]
  have hP : 1 < maxAbsSample [(2 : ℚ), -4] := by rw [hm]; norm_num
  refine ⟨?_, ?_, ?_⟩
  · exact (normalizeSamples_peak [(1 : ℚ)/2, -1] (by simp)).1 habs
  · have h := ((normalizeSamples_peak [(2 : ℚ), -4] (by simp)).2.1 hP).1
    rw [h, hm]
    norm_num
  · exact ((normalizeSamples_peak [(2 : ℚ), -4] (by simp)).2.1 hP).2

/-! ## Transcription-session aggregator
(second unit of src/handlers/youtube.ts, lines 196–406 and 578–587)

`transcriptionSessions` is a `Map` keyed by `chatId`.  JavaScript object
identity of a `TranscriptionSession` (the `currentSession !== session`
guard in `scheduleAutoFinish`) is modelled by a surrogate identity stamp
`sid`, drawn from a counter that increases on every session creation.  The
inactivity timer itself is modelled by a `timerFire` event carrying the
`chatId` and the `sid` of the session the timer closure captured; timestamps
are milliseconds.  The status-message bookkeeping, `userId` and the request
context are external collaborators and are not modelled. -/

/-- `AUTO_FINISH_TIMEOUT` (line 210): 5 seconds of inactivity. -/
def AUTO_FINISH_TIMEOUT : Nat := 5 * 1000

/-- `MAX_SESSION_LIFETIME` (line 213): 5 minutes. -/
def MAX_SESSION_LIFETIME : Nat := 5 * 60 * 1000

/-- One live transcription session (interface at lines 196–204). -/
structure TranscriptionSession where
  sid : Nat
  messages : List String
  lastUpdate : Nat
deriving DecidableEq, Repr

/-- The aggregator state: the session table, the identity counter, and the
batches handed to `processTranscription` so far, in order. -/
structure AggState where
  table : Nat → Option TranscriptionSession
  nextSid : Nat
  finalized : List String

/-- The empty session table. -/
def emptyAggState : AggState :=
  { table := fun _ => none, nextSid := 0, finalized := [] }

/-- `transcriptionSessions.set(chatId, session)`. -/
def setSession (t : Nat → Option TranscriptionSession) (chatId : Nat)
    (s : TranscriptionSession) : Nat → Option TranscriptionSession :=
  fun k => if k = chatId then some s else t k

/-- `transcriptionSessions.delete(chatId)`. -/
def deleteSession (t : Nat → Option TranscriptionSession) (chatId : Nat) :
    Nat → Option TranscriptionSession :=
  fun k => if k = chatId then none else t k

/-- `handleTranscriptionMessage` (lines 269–354): drop the event if the
chat id or the text is falsy; otherwise fetch the session for the key,
replace it by a fresh one when absent or older than the maximum lifetime,
append the fragment, and refresh the last-activity timestamp.  (The
timer reset at line 312 is implicit: a later `timerFire` carries the `sid`
of whichever session armed it.) -/
def handleTranscriptionMessage (st : AggState) (chatId : Nat) (text : String)
    (now : Nat) : AggState :=
  if chatId = 0 ∨ text = "" then st
  else
    match st.table chatId with
    | none =>
        { table := setSession st.table chatId
            { sid := st.nextSid, messages := [text], lastUpdate := now }
          nextSid := st.nextSid + 1
          finalized := st.finalized }
    | some s =>
        if MAX_SESSION_LIFETIME < now - s.lastUpdate then
          { table := setSession st.table chatId
              { sid := st.nextSid, messages := [text], lastUpdate := now }
            nextSid := st.nextSid + 1
            finalized := st.finalized }
        else
          { table := setSession st.table chatId
              { s with messages := s.messages ++ [text], lastUpdate := now }
            nextSid := st.nextSid
            finalized := st.finalized }

/-- `handleFinishTranscription` (lines 359–406): no-op (with a user-visible
notice) when no session or no fragments; otherwise cancel the timer, join
the fragments with `'\n\n'`, remove the session, and hand the batch on. -/
def handleFinishTranscription (st : AggState) (chatId : Nat) : AggState :=
  match st.table chatId with
  | none => st
  | some s =>
      if s.messages = [] then st
      else
        { table := deleteSession st.table chatId
          nextSid := st.nextSid
          finalized := st.finalized ++ [joinSep "\n\n" s.messages] }

/-- The body of the `setTimeout` callback armed by `scheduleAutoFinish`
(lines 225–263): fetch the *current* session for the key and return without
touching anything unless it is the very session the timer was armed for
(`!currentSession || currentSession !== session`); return as well when it
has no messages; otherwise remove it and hand the joined batch on. -/
def timerFire (st : AggState) (chatId sid : Nat) : AggState :=
  match st.table chatId with
  | none => st
  | some cur =>
      if cur.sid ≠ sid then st
      else if cur.messages = [] then st
      else
        { table := deleteSession st.table chatId
          nextSid := st.nextSid
          finalized := st.finalized ++ [joinSep "\n\n" cur.messages] }

/-- `clearTranscriptionSession` (lines 578–587). -/
def clearTranscriptionSession (st : AggState) (chatId : Nat) : AggState :=
  { table := deleteSession st.table chatId
    nextSid := st.nextSid
    finalized := st.finalized }

/-- C4: three fragments arriving in order for one key within the session
lifetime are handed downstream, on finalization (explicit finish or the
timer armed by the last fragment), as the single batch
`A ++ "\n\n" ++ B ++ "\n\n" ++ C` — arrival order, paragraph separator,
nothing added or dropped. -/
theorem session_fragments_join (chatId : Nat) (a b c : String) (t0 t1 t2 : Nat)
    (hchat : chatId ≠ 0) (ha : a ≠ "") (hb : b ≠ "") (hc : c ≠ "")
    (h1 : t1 - t0 ≤ MAX_SESSION_LIFETIME) (h2 : t2 - t1 ≤ MAX_SESSION_LIFETIME) :
    (handleFinishTranscription
        (handleTranscriptionMessage
          (handleTranscriptionMessage
            (handleTranscriptionMessage emptyAggState chatId a t0)
            chatId b t1)
          chatId c t2)
        chatId).finalized = [a ++ "\n\n" ++ b ++ "\n\n" ++ c] ∧
    (timerFire
        (handleTranscriptionMessage
          (handleTranscriptionMessage
            (handleTranscriptionMessage emptyAggState chatId a t0)
            chatId b t1)
          chatId c t2)
        chatId 0).finalized = [a ++ "\n\n" ++ b ++ "\n\n" ++ c] := by
  have hg1 : ¬ MAX_SESSION_LIFETIME < t1 - t0 := not_lt.mpr h1
  have hg2 : ¬ MAX_SESSION_LIFETIME < t2 - t1 := not_lt.mpr h2
  have hstep :
      handleTranscriptionMessage
          (handleTranscriptionMessage
            (handleTranscriptionMessage emptyAggState chatId a t0)
            chatId b t1)
          chatId c t2 =
        { table := setSession (setSession (setSession (fun _ => none) chatId
              { sid := 0, messages := [a], lastUpdate := t0 }) chatId
              { sid := 0, messages := [a, b], lastUpdate := t1 }) chatId
              { sid := 0, messages := [a, b, c], lastUpdate := t2 }
          nextSid := 1
          finalized := [] } := by
    simp [handleTranscriptionMessage, emptyAggState, setSession, hchat, ha, hb, hc,
      hg1, hg2]
  rw [hstep]
  constructor
  · simp [handleFinishTranscription, setSession, joinSep, String.append_assoc]
  · simp [timerFire, setSession, joinSep, String.append_assoc]

/-- Witness for `session_fragments_join` at chat 7, fragments "A", "B",
"C", times 0, 1000, 2000. -/
theorem session_fragments_join_witness :
    (handleFinishTranscription
        (handleTranscriptionMessage
          (handleTranscriptionMessage
            (handleTranscriptionMessage emptyAggState 7 "A" 0)
            7 "B" 1000)
          7 "C" 2000)
        7).finalized = ["A\n\nB\n\nC"] := by
  have h := (session_fragments_join 7 "A" "B" "C" 0 1000 2000
    (by decide) (by decide) (by decide) (by decide)
    (by decide) (by decide)).1
  simpa using h

/-- C5: a timer whose captured session is no longer the one stored for its
conversation key — because that session was finalized, cancelled, or
replaced by a newer session — is a no-op: the state (session table,
identity counter, finalized batches) is returned entirely unchanged.  The
guard compares session identity, not merely the key. -/
theorem staleTimer_noop (st : AggState) (chatId sid : Nat)
    (h : ∀ cur, st.table chatId = some cur → cur.sid ≠ sid) :
    timerFire st chatId sid = st := by
  unfold timerFire
  rcases hcur : st.table chatId with _ | cur
  · rfl
  · simp [h cur hcur]

/-- Witness for `staleTimer_noop`: the stale-timer-after-replace scenario.
Fragment "A" creates session 0 and arms its timer; an explicit finish
finalizes it; fragment "B" creates session 1 under the same key; the old
timer (armed for session 0) then fires and changes nothing. -/
theorem staleTimer_noop_witness :
    timerFire
        (handleTranscriptionMessage
          (handleFinishTranscription
            (handleTranscriptionMessage emptyAggState 7 "A" 0) 7)
          7 "B" 1000)
        7 0 =
      handleTranscriptionMessage
        (handleFinishTranscription
          (handleTranscriptionMessage emptyAggState 7 "A" 0) 7)
        7 "B" 1000 := by
  apply staleTimer_noop
  intro cur hcur
  have : cur = { sid := 1, messages := ["B"], lastUpdate := 1000 } := by
    simp [handleTranscriptionMessage, handleFinishTranscription, emptyAggState,
      setSession, deleteSession, joinSep] at hcur
    exact hcur.symm
  rw [this]
  decide

/-! ## `ArticleGenerator.generateArticleStreaming`
(src/services/article.ts, lines 76–169)

A run is parameterized by whether the connectivity preflight succeeds and
by the behavior of the `ollama.generate` backend on each attempt number
(1-based): either the accumulated streamed text or a rejection carrying a
message and an optional error code. -/

/-- The error object a rejected backend call carries (`error.message`,
`error.code`). -/
structure OllamaError where
  msg : String
  code : Option String
deriving DecidableEq, Repr

/-- `maxRetries` (line 107). -/
def maxRetries : Nat := 3

/-- The retry guard of lines 133–138 (without the attempt bound): retry
only on a classified-transient failure — message containing `'Timeout'` or
`'fetch failed'`, or code `ECONNREFUSED` or `UND_ERR_HEADERS_TIMEOUT`. -/
def isTransient (e : OllamaError) : Bool :=
  strIncludes e.msg "Timeout" || strIncludes e.msg "fetch failed" ||
    e.code == some "ECONNREFUSED" || e.code == some "UND_ERR_HEADERS_TIMEOUT"

/-- The final error taxonomy synthesized at lines 150–168. -/
inductive GenError where
  | genTimeout
  | unreachable
  | modelNotFound
  | genFailed (msg : String)
deriving DecidableEq, Repr

/-- Classification of the last error after the loop ends (lines 151–168). -/
def classifyFinal (e : OllamaError) : GenError :=
  if strIncludes e.msg "Timeout" || e.code == some "UND_ERR_HEADERS_TIMEOUT" then
    .genTimeout
  else if strIncludes e.msg "fetch failed" || e.code == some "ECONNREFUSED" then
    .unreachable
  else if strIncludes e.msg "model" || strIncludes e.msg "not found" then
    .modelNotFound
  else
    .genFailed e.msg

/-- Outcome of one `generateArticleStreaming` run: how many `generate`
calls were made, the delays slept before retries (in order), and the value
returned or the classified error thrown. -/
structure GenRun where
  calls : Nat
  delays : List Nat
  result : Except GenError String
deriving Repr

/-- The `for (attempt = 1; attempt <= maxRetries; attempt++)` loop of lines
110–148: call the backend; on success return the accumulated text,
trimmed; on failure retry — after sleeping
`Math.min(1000 * Math.pow(2, attempt - 1), 10000)` — only while attempts
remain and the error is transient; otherwise break out and throw the
classified last error. -/
def generateGo (backend : Nat → Except OllamaError String) (attempt : Nat) : GenRun :=
  match backend attempt with
  | .ok text => { calls := 1, delays := [], result := .ok (jsTrim text) }
  | .error e =>
      if h : attempt < maxRetries ∧ isTransient e = true then
        let d := min (1000 * 2 ^ (attempt - 1)) 10000
        let rest := generateGo backend (attempt + 1)
        { calls := rest.calls + 1, delays := d :: rest.delays, result := rest.result }
      else
        { calls := 1, delays := [], result := .error (classifyFinal e) }
termination_by maxRetries - attempt
decreasing_by
  have := h.1
  simp only [maxRetries] at *
  omega

/-- One `generateArticleStreaming` run: the connectivity preflight (lines
82–89) throws the backend-unreachable error before any generate call;
otherwise the retry loop runs from attempt 1. -/
def generateArticleStreaming (connected : Bool)
    (backend : Nat → Except OllamaError String) : GenRun :=
  if connected then generateGo backend 1
  else { calls := 0, delays := [], result := .error .unreachable }

lemma generateGo_ok {backend : Nat → Except OllamaError String} {a : Nat} {t : String}
    (h : backend a = .ok t) :
    generateGo backend a = { calls := 1, delays := [], result := .ok (jsTrim t) } := by
  rw [generateGo, h]

lemma generateGo_stop {backend : Nat → Except OllamaError String} {a : Nat}
    {e : OllamaError} (h : backend a = .error e)
    (hcond : ¬(a < maxRetries ∧ isTransient e = true)) :
    generateGo backend a = { calls := 1, delays := [], result := .error (classifyFinal e) } := by
  rw [generateGo, h]
  exact dif_neg hcond

lemma generateGo_retry {backend : Nat → Except OllamaError String} {a : Nat}
    {e : OllamaError} (h : backend a = .error e) (ha : a < maxRetries)
    (ht : isTransient e = true) :
    generateGo backend a =
      { calls := (generateGo backend (a + 1)).calls + 1
        delays := min (1000 * 2 ^ (a - 1)) 10000 :: (generateGo backend (a + 1)).delays
        result := (generateGo backend (a + 1)).result } := by
  rw [generateGo, h]
  exact dif_pos ⟨ha, ht⟩

lemma generateGo_calls_le (n : Nat) :
    ∀ (a : Nat), maxRetries - a ≤ n → ∀ (backend : Nat → Except OllamaError String),
      (generateGo backend a).calls ≤ maxRetries - a + 1 := by
  induction n with
  | zero =>
      intro a ha backend
      rcases h : backend a with e | t
      · rw [generateGo_stop h (by simp only [maxRetries] at *; omega)]
        exact Nat.le_add_left 1 _
      · rw [generateGo_ok h]
        exact Nat.le_add_left 1 _
  | succ n ih =>
      intro a ha backend
      rcases h : backend a with e | t
      · by_cases hc : a < maxRetries ∧ isTransient e = true
        · rw [generateGo_retry h hc.1 hc.2]
          have hrec := ih (a + 1) (by omega) backend
          have ha' := hc.1
          simp only at *
          omega
        · rw [generateGo_stop h hc]
          exact Nat.le_add_left 1 _
      · rw [generateGo_ok h]
        exact Nat.le_add_left 1 _

lemma generateGo_calls_delays (n : Nat) :
    ∀ (a : Nat), maxRetries - a ≤ n → ∀ (backend : Nat → Except OllamaError String),
      (generateGo backend a).delays.length + 1 = (generateGo backend a).calls := by
  induction n with
  | zero =>
      intro a ha backend
      rcases h : backend a with e | t
      · rw [generateGo_stop h (by simp only [maxRetries] at *; omega)]
        rfl
      · rw [generateGo_ok h]
        rfl
  | succ n ih =>
      intro a ha backend
      rcases h : backend a with e | t
      · by_cases hc : a < maxRetries ∧ isTransient e = true
        · rw [generateGo_retry h hc.1 hc.2]
          have hrec := ih (a + 1) (by omega) backend
          simp only [List.length_cons]
          omega
        · rw [generateGo_stop h hc]
          rfl
      · rw [generateGo_ok h]
        rfl

lemma generateGo_delays_spec (n : Nat) :
    ∀ (a : Nat), 1 ≤ a → maxRetries - a ≤ n →
      ∀ (backend : Nat → Except OllamaError String) (k : Nat)
        (hk : k < (generateGo backend a).delays.length),
      (generateGo backend a).delays.get ⟨k, hk⟩ = min (1000 * 2 ^ (a - 1 + k)) 10000 ∧
      ∃ e, backend (a + k) = .error e ∧ isTransient e = true := by
  induction n with
  | zero =>
      intro a h1 ha backend k hk
      exfalso
      rcases h : backend a with e | t
      · rw [generateGo_stop h (by simp only [maxRetries] at *; omega)] at hk
        simp at hk
      · rw [generateGo_ok h] at hk
        simp at hk
  | succ n ih =>
      intro a h1 ha backend k hk
      rcases h : backend a with e | t
      · by_cases hc : a < maxRetries ∧ isTransient e = true
        · have hrw := generateGo_retry h hc.1 hc.2
          have hdel : (generateGo backend a).delays =
              min (1000 * 2 ^ (a - 1)) 10000 :: (generateGo backend (a + 1)).delays := by
            rw [hrw]
          rcases k with _ | k
          · refine ⟨?_, e, by simpa using h, hc.2⟩
            have hz : (generateGo backend a).delays.get ⟨0, hk⟩ =
                min (1000 * 2 ^ (a - 1)) 10000 := by
              rw [List.get_of_eq hdel]
              rfl
            simpa using hz
          · have hk' : k < (generateGo backend (a + 1)).delays.length := by
              have hlen := hk
              rw [hdel] at hlen
              simpa using hlen
            have hrec := ih (a + 1) (by omega) (by omega) backend k hk'
            constructor
            · have hcast : (generateGo backend a).delays.get ⟨k + 1, hk⟩ =
                  (generateGo backend (a + 1)).delays.get ⟨k, hk'⟩ := by
                have hget : ∀ (l : List Nat) (d : Nat) (hkk : k + 1 < (d :: l).length)
                    (hkk' : k < l.length), (d :: l).get ⟨k + 1, hkk⟩ = l.get ⟨k, hkk'⟩ :=
                  fun l d hkk hkk' => rfl
                rw [List.get_of_eq hdel]
                exact hget _ _ _ hk'
              have hexp : a + 1 - 1 + k = a - 1 + (k + 1) := by omega
              rw [hcast, hrec.1, hexp]
            · rcases hrec.2 with ⟨e', he', ht'⟩
              exact ⟨e', by rw [show a + (k + 1) = a + 1 + k by omega]; exact he', ht'⟩
        · exfalso
          rw [generateGo_stop h hc] at hk
          simp at hk
      · exfalso
        rw [generateGo_ok h] at hk
        simp at hk

/-- C6: for every streaming text-generation run, the backend `generate`
call is made at most `maxRetries = 3` times; the delay slept before the
k-th retry is exactly `min(1000·2^(k-1), 10000)` (exponential growth with
a fixed ceiling) and each retry follows a transient-classified failure; a
non-transient failure on the first attempt aborts immediately — one call,
no delays — with the classified error; the number of delays is one less
than the number of calls made by the loop; and every failing run's error is
one of timeout / unreachable / model-not-found / generic failure. -/
theorem generateStreaming_retry_policy :
    (∀ (connected : Bool) (backend : Nat → Except OllamaError String),
      (generateArticleStreaming connected backend).calls ≤ maxRetries) ∧
    (∀ (backend : Nat → Except OllamaError String) (e : OllamaError),
      backend 1 = .error e → isTransient e = false →
      generateArticleStreaming true backend =
        { calls := 1, delays := [], result := .error (classifyFinal e) }) ∧
    (∀ (backend : Nat → Except OllamaError String) (k : Nat)
      (hk : k < (generateArticleStreaming true backend).delays.length),
      (generateArticleStreaming true backend).delays.get ⟨k, hk⟩ =
          min (1000 * 2 ^ k) 10000 ∧
      ∃ e, backend (1 + k) = .error e ∧ isTransient e = true) ∧
    (∀ (backend : Nat → Except OllamaError String),
      (generateArticleStreaming true backend).delays.length + 1 =
        (generateArticleStreaming true backend).calls) ∧
    (∀ (connected : Bool) (backend : Nat → Except OllamaError String) (g : GenError),
      (generateArticleStreaming connected backend).result = .error g →
      g = .genTimeout ∨ g = .unreachable ∨ g = .modelNotFound ∨
        ∃ m, g = .genFailed m) := by
  refine ⟨?_, ?_, ?_, ?_, ?_⟩
  · intro connected backend
    cases connected
    · simp [generateArticleStreaming, maxRetries]
    · simpa [generateArticleStreaming] using
        generateGo_calls_le maxRetries 1 (by omega) backend
  · intro backend e h ht
    rw [generateArticleStreaming, if_pos rfl,
      generateGo_stop h (by simp [ht])]
  · intro backend k hk
    have hk' : k < (generateGo backend 1).delays.length := by
      simpa [generateArticleStreaming] using hk
    have h := generateGo_delays_spec maxRetries 1 (by omega) (by omega) backend k hk'
    constructor
    · have hget : (generateArticleStreaming true backend).delays.get ⟨k, hk⟩ =
          (generateGo backend 1).delays.get ⟨k, hk'⟩ := by
        apply List.get_of_eq
        simp [generateArticleStreaming]
      rw [hget, h.1]
      norm_num
    · exact h.2
  · intro backend
    simpa [generateArticleStreaming] using
      generateGo_calls_delays maxRetries 1 (by omega) backend
  · intro connected backend g _
    cases g with
    | genTimeout => exact Or.inl rfl
    | unreachable => exact Or.inr (Or.inl rfl)
    | modelNotFound => exact Or.inr (Or.inr (Or.inl rfl))
    | genFailed m => exact Or.inr (Or.inr (Or.inr ⟨m, rfl⟩))

/-- A backend whose every attempt rejects with a transient timeout. -/
def timeoutBackend : Nat → Except OllamaError String :=
  fun _ => .error { msg := "Timeout", code := none }

/-- A backend whose first attempt rejects with a non-transient
model-not-found error. -/
def modelMissingBackend : Nat → Except OllamaError String :=
  fun _ => .error { msg := "model llama3 not found", code := none }

/-- Witness for `generateStreaming_retry_policy`: a model-not-found failure
aborts after one call with the model-not-found classification; an
all-timeouts backend stays within the 3-call budget with one fewer delay
than calls. -/
theorem generateStreaming_retry_policy_witness :
    generateArticleStreaming true modelMissingBackend =
      { calls := 1, delays := [], result := .error .modelNotFound } ∧
    (generateArticleStreaming true timeoutBackend).calls ≤ maxRetries ∧
    (generateArticleStreaming true timeoutBackend).delays.length + 1 =
      (generateArticleStreaming true timeoutBackend).calls := by
  refine ⟨?_, ?_, ?_⟩
  · have h := generateStreaming_retry_policy.2.1 modelMissingBackend
      { msg := "model llama3 not found", code := none } rfl (by decide)
    rw [h]
    have hc : classifyFinal { msg := "model llama3 not found", code := none } =
        .modelNotFound := by decide
    rw [hc]
  · exact generateStreaming_retry_policy.1 true timeoutBackend
  · exact generateStreaming_retry_policy.2.2.2.1 timeoutBackend

/-! ## The pipeline orchestrator `handleYouTubeUrl`
(first unit of src/handlers/youtube.ts, lines 9–183)

A run is parameterized by the outcome of each stage and by which file
removals fail.  `fs-extra`'s behavior in `cleanupFile`
(src/utils/tempFiles.ts): the file is removed unless `fs.remove` throws,
and a throw is caught and logged, never propagated; `cleanupFiles` maps
`cleanupFile` over every registered path.  Status-message edits and chat
replies are external collaborators and are not modelled beyond what the
run delivers. -/

/-- Stage outcomes of one `handleYouTubeUrl` run plus the filesystem's
removal behavior.  `download`/`extract`/`image` carry the temp-file path
the stage produced. -/
structure PipelineEnv where
  videoInfo : Except String Unit
  download : Except String String
  extract : Except String String
  transcribe : Except String String
  article : Except String String
  image : Except String String
  removeFails : String → Bool

/-- The files among `files` still on disk after `cleanupFiles` ran over all
of them: exactly those whose own `fs.remove` threw (the error is swallowed
and the other removals are unaffected — `Promise.all` over independent
`cleanupFile` calls). -/
def cleanupSurvivors (removeFails : String → Bool) (files : List String) : List String :=
  files.filter (fun f => removeFails f)

/-- Outcome of one `handleYouTubeUrl` run.

* `registered` — the `tempFiles` array at the end of the run;
* `cleaned` — the files `cleanupFile` was invoked on in the `finally` block;
* `delivered` — the article message sent to the chat, if the run got there;
* `imageAttached` — the image artifact sent, if any;
* `success` — whether the run reached the final success reply;
* `remaining` — registered files still on disk after the run. -/
structure PipelineResult where
  registered : List String
  cleaned : List String
  delivered : Option String
  imageAttached : Option String
  success : Bool
  remaining : List String

/-- The abort path of `handleYouTubeUrl`: the `catch` block reports the
failure, then the `finally` block (line 181) runs `cleanupFiles` over every
registered temp file. -/
def pipelineAbort (env : PipelineEnv) (tempFiles : List String) : PipelineResult :=
  { registered := tempFiles
    cleaned := tempFiles
    delivered := none
    imageAttached := none
    success := false
    remaining := cleanupSurvivors env.removeFails tempFiles }

/-- `handleYouTubeUrl` (lines 9–183): get video info, download audio
(registered), extract WAV (registered), transcribe (aborting on empty
transcription, line 82), generate the article, then *try* to generate an
image — a failure there is caught at lines 120–123 and the run continues
without an image — send the article (prefixed as at line 135), send the
image if present, and report success; the `finally` block cleans every
registered temp file on every exit path. -/
def handleYouTubeUrl (env : PipelineEnv) : PipelineResult :=
  match env.videoInfo with
  | .error _ => pipelineAbort env []
  | .ok _ =>
    match env.download with
    | .error _ => pipelineAbort env []
    | .ok audioFile =>
      match env.extract with
      | .error _ => pipelineAbort env [audioFile]
      | .ok audioPath =>
        match env.transcribe with
        | .error _ => pipelineAbort env [audioFile, audioPath]
        | .ok transcription =>
          if jsTrim transcription = "" then pipelineAbort env [audioFile, audioPath]
          else
            match env.article with
            | .error _ => pipelineAbort env [audioFile, audioPath]
            | .ok article =>
              let imgTemp : Option String :=
                match env.image with
                | .ok imagePath => some imagePath
                | .error _ => none
              let tempFiles := [audioFile, audioPath] ++ imgTemp.toList
              { registered := tempFiles
                cleaned := tempFiles
                delivered := some ("📄 Статья на основе видео:\n\n" ++ article)
                imageAttached := imgTemp
                success := true
                remaining := cleanupSurvivors env.removeFails tempFiles }

/-- C7: if every stage up to article generation succeeds and the
image-generation step throws — any error, including total provider-fallback
failure — the orchestrator does not abort: the generated article is still
delivered, no image is attached, and the run reports overall success. -/
theorem imageFailure_nonfatal (env : PipelineEnv) (audioFile audioPath tr art emsg : String)
    (hinfo : env.videoInfo = .ok ()) (hdl : env.download = .ok audioFile)
    (hex : env.extract = .ok audioPath) (htr : env.transcribe = .ok tr)
    (htrne : jsTrim tr ≠ "") (hart : env.article = .ok art)
    (himg : env.image = .error emsg) :
    (handleYouTubeUrl env).success = true ∧
    (handleYouTubeUrl env).delivered = some ("📄 Статья на основе видео:\n\n" ++ art) ∧
    (handleYouTubeUrl env).imageAttached = none := by
  simp only [handleYouTubeUrl, hinfo, hdl, hex, htr, hart, himg]
  rw [if_neg htrne]
  exact ⟨rfl, rfl, rfl⟩

/-- Witness for `imageFailure_nonfatal`: a concrete run whose image stage
fails on both providers. -/
theorem imageFailure_nonfatal_witness :
    (handleYouTubeUrl
        { videoInfo := .ok (), download := .ok "a.m4a", extract := .ok "a.wav"
          transcribe := .ok "text", article := .ok "Article"
          image := .error "Image generation failed"
          removeFails := fun _ => false }).success = true ∧
    (handleYouTubeUrl
        { videoInfo := .ok (), download := .ok "a.m4a", extract := .ok "a.wav"
          transcribe := .ok "text", article := .ok "Article"
          image := .error "Image generation failed"
          removeFails := fun _ => false }).imageAttached = none := by
  have h := imageFailure_nonfatal
    { videoInfo := .ok (), download := .ok "a.m4a", extract := .ok "a.wav"
      transcribe := .ok "text", article := .ok "Article"
      image := .error "Image generation failed"
      removeFails := fun _ => false }
    "a.m4a" "a.wav" "text" "Article" "Image generation failed"
    rfl rfl rfl rfl (by decide) rfl rfl
  exact ⟨h.1, h.2.2⟩

/-- A run in which everything up to the article succeeds, image generation
fails, and `fs.remove` of the downloaded audio file throws. -/
def stuckRemovalEnv : PipelineEnv :=
  { videoInfo := .ok (), download := .ok "a.m4a", extract := .ok "a.wav"
    transcribe := .ok "text", article := .ok "Article"
    image := .error "no image"
    removeFails := fun f => f == "a.m4a" }

/-- C8 counterexample: in `stuckRemovalEnv` cleanup is invoked on both
registered artifacts and the failure removing `a.m4a` is swallowed (the run
still succeeds and `a.wav` is removed), but `a.m4a` itself is still on the
filesystem after the run ends — contradicting the claim that no registered
artifact remains even when a cleanup call fails. -/
theorem cleanup_absence_refuted :
    (handleYouTubeUrl stuckRemovalEnv).registered = ["a.m4a", "a.wav"] ∧
    (handleYouTubeUrl stuckRemovalEnv).cleaned = ["a.m4a", "a.wav"] ∧
    (handleYouTubeUrl stuckRemovalEnv).success = true ∧
    (handleYouTubeUrl stuckRemovalEnv).remaining = ["a.m4a"] := by
  exact ⟨rfl, rfl, rfl, rfl⟩

/-- C8 amended: on every exit path (success or failure of any stage),
cleanup is invoked on every registered artifact; a failure cleaning one
artifact is never propagated and never prevents cleanup of the remaining
artifacts, so every registered artifact whose own removal does not throw is
absent from the filesystem after the run — but an artifact whose removal
throws remains (the error is only logged). -/
theorem cleanup_every_exit_path (env : PipelineEnv) :
    (handleYouTubeUrl env).cleaned = (handleYouTubeUrl env).registered ∧
    (handleYouTubeUrl env).remaining =
      cleanupSurvivors env.removeFails (handleYouTubeUrl env).registered ∧
    (∀ f ∈ (handleYouTubeUrl env).registered, env.removeFails f = false →
      f ∉ (handleYouTubeUrl env).remaining) := by
  have hshape : (handleYouTubeUrl env).cleaned = (handleYouTubeUrl env).registered ∧
      (handleYouTubeUrl env).remaining =
        cleanupSurvivors env.removeFails (handleYouTubeUrl env).registered := by
    rw [handleYouTubeUrl]
    repeat' split
    all_goals exact ⟨rfl, rfl⟩
  refine ⟨hshape.1, hshape.2, ?_⟩
  intro f hf hok
  rw [hshape.2]
  intro hmem
  have := List.of_mem_filter hmem
  rw [hok] at this
  exact Bool.false_ne_true this

/-- Witness for `cleanup_every_exit_path`: in the `stuckRemovalEnv` run the
WAV artifact, whose removal does not throw, is absent afterwards. -/
theorem cleanup_every_exit_path_witness :
    "a.wav" ∉ (handleYouTubeUrl stuckRemovalEnv).remaining := by
  exact (cleanup_every_exit_path stuckRemovalEnv).2.2 "a.wav" (by decide) rfl

/-! ## `splitMessage` (src/utils/telegram.ts, lines 45–56)

The input string is represented by its character sequence; JavaScript
`text.substring(offset, offset + maxLength)` is `drop offset` followed by
`take maxLength`.  The source's `while` loop advances `offset` by
`maxLength` each iteration, so it terminates exactly when `maxLength` is
positive; the positivity assumption is carried as an argument. -/

/-- The `while (offset < text.length)` loop of `splitMessage`: push
`text.substring(offset, offset + maxLength)` and advance the offset. -/
def splitMessageLoop (text : List Char) (maxLength : Nat) (hm : 0 < maxLength)
    (offset : Nat) : List (List Char) :=
  if h : offset < text.length then
    ((text.drop offset).take maxLength) ::
      splitMessageLoop text maxLength hm (offset + maxLength)
  else []
termination_by text.length - offset
decreasing_by omega

/-- `splitMessage(text, maxLength)` for positive `maxLength`: run the loop
from offset 0. -/
def splitMessage (text : List Char) (maxLength : Nat) (hm : 0 < maxLength) :
    List (List Char) :=
  splitMessageLoop text maxLength hm 0

lemma take_ne_nil_of_ne_nil {l : List Char} {m : Nat} (hl : l ≠ []) (hm : 0 < m) :
    l.take m ≠ [] := by
  cases l with
  | nil => exact absurd rfl hl
  | cons x xs =>
      cases m with
      | zero => omega
      | succ m => simp

lemma splitMessageLoop_spec (text : List Char) (maxLength : Nat) (hm : 0 < maxLength)
    (n : Nat) :
    ∀ (offset : Nat), text.length - offset ≤ n →
      (splitMessageLoop text maxLength hm offset).flatten = text.drop offset ∧
      ∀ c ∈ splitMessageLoop text maxLength hm offset,
        c.length ≤ maxLength ∧ c ≠ [] := by
  induction n with
  | zero =>
      intro offset ho
      rw [splitMessageLoop, dif_neg (by omega)]
      constructor
      · rw [List.flatten_nil, eq_comm, List.drop_eq_nil_iff]
        omega
      · intro c hc
        simp at hc
  | succ n ih =>
      intro offset ho
      by_cases h : offset < text.length
      · rw [splitMessageLoop, dif_pos h]
        have hrec := ih (offset + maxLength) (by omega)
        constructor
        · rw [List.flatten_cons, hrec.1, ← List.drop_drop, List.take_append_drop]
        · intro c hc
          rw [List.mem_cons] at hc
          rcases hc with rfl | hc
          · refine ⟨List.length_take_le maxLength _, ?_⟩
            apply take_ne_nil_of_ne_nil _ hm
            intro hdrop
            rw [List.drop_eq_nil_iff] at hdrop
            omega
          · exact hrec.2 c hc
      · rw [splitMessageLoop, dif_neg h]
        constructor
        · rw [List.flatten_nil, eq_comm, List.drop_eq_nil_iff]
          omega
        · intro c hc
          simp at hc

/-- C10: for every string `text` and positive chunk size, `splitMessage`
returns chunks each of length at most `maxLength` and non-empty, whose
in-order concatenation is exactly `text`; the empty string yields the empty
list. -/
theorem splitMessage_spec (text : List Char) (maxLength : Nat) (hm : 0 < maxLength) :
    (∀ c ∈ splitMessage text maxLength hm, c.length ≤ maxLength ∧ c ≠ []) ∧
    (splitMessage text maxLength hm).flatten = text ∧
    splitMessage [] maxLength hm = [] := by
  have h := splitMessageLoop_spec text maxLength hm text.length 0 (by omega)
  refine ⟨h.2, ?_, ?_⟩
  · rw [splitMessage, h.1, List.drop_zero]
  · rw [splitMessage, splitMessageLoop, dif_neg (by simp)]

/-- Witness for `splitMessage_spec` on the five-character string `abcde`
with chunk size 2. -/
theorem splitMessage_spec_witness :
    (splitMessage ['a', 'b', 'c', 'd', 'e'] 2 (Nat.succ_pos 1)).flatten =
        ['a', 'b', 'c', 'd', 'e'] ∧
    splitMessage ([] : List Char) 2 (Nat.succ_pos 1) = [] :=
  ⟨(splitMessage_spec ['a', 'b', 'c', 'd', 'e'] 2 (Nat.succ_pos 1)).2.1,
    (splitMessage_spec [] 2 (Nat.succ_pos 1)).2.2⟩

end DzenHelper
